import Mathlib

/-!
Formal model of the kathara-checker-scoring matching-and-scoring engine
(src/kathara_checker_scoring/models.py and scoring.py), with proofs of the
specification properties.

Modelling conventions:
- Python numbers are modelled by the tagged type PyNum: a value is either an
  int (exact integer) or a float (modelled by an exact rational; binary
  floating-point rounding error is out of scope).  Python arithmetic
  propagates the tag exactly as the implementation does: int op int is int,
  any float operand makes the result float, and true division always
  produces a float.
- Python round is round-half-to-even and returns an int; math.floor returns
  an int.
- The float NaN produced by _calc_percentage when the denominator is zero is
  modelled by Option: none is the NaN sentinel, some q is the float q.
- Compiled regular expressions (re.Pattern) are modelled by a small regex
  AST with Brzozowski derivatives; re.Pattern.match (anchored at the start
  of the string, not required to consume it) is modelled by reMatch.
- Python dicts keyed by frozen dataclass values are modelled by
  first-occurrence key lists (dedupKeys) together with the per-key value the
  insertion loop produces.
- The back reference CheckGroup.category is a reference cycle in Python; it
  is flattened here to the two projections the code reads through it: the
  owning category name and its points multiplier.
-/

/-- One limb of the Python int | float union, with the tag tracked exactly. -/
inductive PyNum where
  | int : ℤ → PyNum
  | float : ℚ → PyNum
deriving DecidableEq

/-- The numeric value of a PyNum, as an exact rational. -/
def PyNum.toRat : PyNum → ℚ
  | .int z => (z : ℚ)
  | .float q => q

/-- Whether the Python value carries the float type tag. -/
def PyNum.isFloat : PyNum → Bool
  | .int _ => false
  | .float _ => true

/-- Python addition: int + int is int, otherwise float. -/
def pyAdd : PyNum → PyNum → PyNum
  | .int a, .int b => .int (a + b)
  | a, b => .float (a.toRat + b.toRat)

/-- Python multiplication: int * int is int, otherwise float. -/
def pyMul : PyNum → PyNum → PyNum
  | .int a, .int b => .int (a * b)
  | a, b => .float (a.toRat * b.toRat)

/-- Python true division, which always produces a float.  Division by zero
raises ZeroDivisionError in Python; here it yields the rational zero, and
every theorem touching a division guards the denominator (records nonempty). -/
def pyDiv (a b : PyNum) : PyNum := .float (a.toRat / b.toRat)

/-- Python sum over a list of numbers, starting from the int 0. -/
def pySum (l : List PyNum) : PyNum := l.foldl pyAdd (.int 0)

/-- Round half to even, the tie-breaking rule of the Python builtin round. -/
def roundHalfEven (q : ℚ) : ℤ :=
  if q - ⌊q⌋ < 1/2 then ⌊q⌋
  else if 1/2 < q - ⌊q⌋ then ⌊q⌋ + 1
  else if ⌊q⌋ % 2 = 0 then ⌊q⌋ else ⌊q⌋ + 1

/-- The Python builtin round on a number, producing an int. -/
def pyRound (x : PyNum) : PyNum := .int (roundHalfEven x.toRat)

/-- math.floor on a number, producing an int (truncation toward negative
infinity). -/
def pyFloor (x : PyNum) : PyNum := .int ⌊x.toRat⌋

/-!
Regular expressions.  A compiled re.Pattern is modelled by a regex AST.
The method re.Pattern.match used by CheckGroup.matches is anchored at the
start of the string and succeeds as soon as some prefix of the string is in
the language of the pattern; it does not need to consume the whole string
and it does not search for occurrences further right.
-/

/-- Regex abstract syntax, the model of a compiled re.Pattern. -/
inductive RE where
  | empty : RE
  | eps : RE
  | ch : Char → RE
  | alt : RE → RE → RE
  | cat : RE → RE → RE
  | star : RE → RE
deriving DecidableEq

/-- Whether the regex accepts the empty word. -/
def RE.nullable : RE → Bool
  | .empty => false
  | .eps => true
  | .ch _ => false
  | .alt a b => a.nullable || b.nullable
  | .cat a b => a.nullable && b.nullable
  | .star _ => true

/-- Brzozowski derivative of a regex with respect to one character. -/
def RE.deriv : RE → Char → RE
  | .empty, _ => .empty
  | .eps, _ => .empty
  | .ch c, x => if x = c then .eps else .empty
  | .alt a b, x => .alt (a.deriv x) (b.deriv x)
  | .cat a b, x => if a.nullable then .alt (.cat (a.deriv x) b) (b.deriv x)
                   else .cat (a.deriv x) b
  | .star a, x => .cat (a.deriv x) (.star a)

/-- Full-word acceptance: whether the whole word is in the language. -/
def RE.accept : RE → List Char → Bool
  | r, [] => r.nullable
  | r, c :: s => (r.deriv c).accept s

/-- Anchored match, the model of re.Pattern.match: succeed as soon as the
regex accepts the part of the word consumed so far (a prefix), starting at
position 0. -/
def reMatch : RE → List Char → Bool
  | r, [] => r.nullable
  | r, c :: s => r.nullable || reMatch (r.deriv c) s

/-- A regex accepting exactly one literal word, used to build concrete test
patterns. -/
def strRE (s : String) : RE := s.data.foldr (fun c r => RE.cat (RE.ch c) r) RE.eps

/-!
Data model from models.py.
-/

/-- A parsed line from the lab result CSV, the result of a specific check.
A frozen dataclass with structural equality and hashing. -/
structure LabResultRecord where
  description : String
  passed : Bool
  reason : String
deriving DecidableEq

/-- The different types of groups; each defines how the score of a group is
calculated (the StrEnum GroupType). -/
inductive GroupType where
  | EACH
  | LINEAR
  | LINEAR_ROUNDED
  | LINEAR_FLOORED
  | ALL
  | ANY
deriving DecidableEq

/-- The number of passed records: sum(1 for rec in records if rec.passed). -/
def countPassed (records : List LabResultRecord) : ℕ :=
  records.countP (fun rec => rec.passed)

/-- The common linear-family intermediate value:
(count_passed / len(records)) * group_points, a float by Python division. -/
def linearEarned (group_points : PyNum) (records : List LabResultRecord) : PyNum :=
  pyMul (pyDiv (.int (countPassed records)) (.int records.length)) group_points

/-- GroupType.calculate_earned_points from models.py. -/
def GroupType.calculate_earned_points (t : GroupType) (group_points : PyNum)
    (records : List LabResultRecord) : PyNum :=
  match t with
  | .EACH => pyMul group_points (.int (countPassed records))
  | .LINEAR => linearEarned group_points records
  | .LINEAR_ROUNDED => pyRound (linearEarned group_points records)
  | .LINEAR_FLOORED => pyFloor (linearEarned group_points records)
  | .ALL => if countPassed records = records.length then group_points else .int 0
  | .ANY => if 1 ≤ countPassed records then group_points else .int 0

/-- GroupType.calculate_max_points from models.py. -/
def GroupType.calculate_max_points (t : GroupType) (group_points : PyNum)
    (records : List LabResultRecord) : PyNum :=
  match t with
  | .EACH => pyMul group_points (.int records.length)
  | .LINEAR | .LINEAR_ROUNDED | .LINEAR_FLOORED => group_points
  | .ALL | .ANY => group_points

/-- A group of checks with a common name whose points are calculated
together (CheckGroup).  In Python the category field is a back reference to
the owning GroupCategory (a reference cycle); the model flattens it to the
two projections the code reads through it: the category name (used by
hashing) and the points multiplier (used by scoring). -/
structure CheckGroup where
  name : String
  type : GroupType
  description_regex : RE
  points : PyNum
  category_name : String
  category_multiplier : PyNum
deriving DecidableEq

/-- CheckGroup.matches: re.Pattern.match on the record description, anchored
at the start of the string. -/
def CheckGroup.matches (g : CheckGroup) (record : LabResultRecord) : Bool :=
  reMatch g.description_regex record.description.data

/-- A collection of check groups displayed and weighted together
(GroupCategory). -/
structure GroupCategory where
  name : String
  points_multiplier : PyNum
  groups : List CheckGroup
deriving DecidableEq

/-- Collection of configuration entries defining how scoring is done
(ScoringConfig). -/
structure ScoringConfig where
  categories : List GroupCategory
deriving DecidableEq

/-- ScoringConfig.groups: the flattened list of groups of every category, in
configuration order. -/
def ScoringConfig.groups (c : ScoringConfig) : List CheckGroup :=
  c.categories.flatMap (fun cat => cat.groups)

/-- ScoringConfig.__post_init__: validation run at construction, raising
ValueError.  Python len(set(xs)) is the number of distinct elements, here the
length of List.dedup. -/
def mkScoringConfig (categories : List GroupCategory) : Except String ScoringConfig :=
  if ((categories.map (fun cat => cat.name)).dedup).length ≠ categories.length then
    .error "Group category names must be unique"
  else if categories.any
      (fun cat => ((cat.groups.map (fun g => g.name)).dedup).length ≠ cat.groups.length) then
    .error "Check group names within categories must be unique"
  else if categories.any (fun cat => cat.groups.length = 0) then
    .error "Each category must contain at least one check group"
  else
    .ok ⟨categories⟩

/-- _calc_percentage from models.py: nan when the whole is zero (the nan
sentinel is Option.none), else part / whole * 100.  The result is always a
Python float. -/
def _calc_percentage (part whole : PyNum) : Option ℚ :=
  if whole.toRat = 0 then none else some (part.toRat / whole.toRat * 100)

/-- The result of the scoring of a group (GroupResult). -/
structure GroupResult where
  group : CheckGroup
  records : List LabResultRecord

def GroupResult.total_checks_count (r : GroupResult) : ℕ := r.records.length

def GroupResult.passed_checks_count (r : GroupResult) : ℕ := countPassed r.records

def GroupResult.failed_check_count (r : GroupResult) : ℕ :=
  r.total_checks_count - r.passed_checks_count

def GroupResult.max_points (r : GroupResult) : PyNum :=
  r.group.type.calculate_max_points
    (pyMul r.group.points r.group.category_multiplier) r.records

def GroupResult.earned_points (r : GroupResult) : PyNum :=
  r.group.type.calculate_earned_points
    (pyMul r.group.points r.group.category_multiplier) r.records

def GroupResult.earned_points_percentage (r : GroupResult) : Option ℚ :=
  _calc_percentage r.earned_points r.max_points

/-- The result of the scoring of a category (CategoryResult). -/
structure CategoryResult where
  category : GroupCategory
  groups : List GroupResult

def CategoryResult.total_checks_count (r : CategoryResult) : ℕ :=
  (r.groups.map GroupResult.total_checks_count).sum

def CategoryResult.passed_checks_count (r : CategoryResult) : ℕ :=
  (r.groups.map GroupResult.passed_checks_count).sum

def CategoryResult.failed_check_count (r : CategoryResult) : ℕ :=
  (r.groups.map GroupResult.failed_check_count).sum

def CategoryResult.max_points (r : CategoryResult) : PyNum :=
  pySum (r.groups.map GroupResult.max_points)

def CategoryResult.earned_points (r : CategoryResult) : PyNum :=
  pySum (r.groups.map GroupResult.earned_points)

def CategoryResult.earned_points_percentage (r : CategoryResult) : Option ℚ :=
  _calc_percentage r.earned_points r.max_points

/-- The result of scoring an entire lab (ScoringResult). -/
structure ScoringResult where
  categories : List CategoryResult

def ScoringResult.total_checks_count (r : ScoringResult) : ℕ :=
  (r.categories.map CategoryResult.total_checks_count).sum

def ScoringResult.passed_checks_count (r : ScoringResult) : ℕ :=
  (r.categories.map CategoryResult.passed_checks_count).sum

def ScoringResult.failed_check_count (r : ScoringResult) : ℕ :=
  (r.categories.map CategoryResult.failed_check_count).sum

def ScoringResult.max_points (r : ScoringResult) : PyNum :=
  pySum (r.categories.map CategoryResult.max_points)

def ScoringResult.earned_points (r : ScoringResult) : PyNum :=
  pySum (r.categories.map CategoryResult.earned_points)

def ScoringResult.earned_points_percentage (r : ScoringResult) : Option ℚ :=
  _calc_percentage r.earned_points r.max_points

/-!
The matcher and the scoring entry point from scoring.py.
-/

/-- The keys of a Python dict built by inserting the given values in order:
first occurrences, in first-insertion order. -/
def dedupKeys {α : Type} [DecidableEq α] (l : List α) : List α :=
  l.foldl (fun acc x => if x ∈ acc then acc else acc ++ [x]) []

/-- The value record_to_groups holds for the dict key equal to the given
record after RecordGroupMatching.create ran: the outer loop visits the
groups in configuration order and the inner loop visits every occurrence of
the record value in the input list, appending the group once per matching
occurrence. -/
def recordKeyGroups (config : ScoringConfig) (records : List LabResultRecord)
    (record : LabResultRecord) : List CheckGroup :=
  config.groups.flatMap
    (fun g => if g.matches record then List.replicate (records.count record) g else [])

/-- The value group_to_records holds for the dict key equal to the given
group: every occurrence of a value-equal group in the flattened group list
appends all records matching it, in input order. -/
def groupKeyRecords (config : ScoringConfig) (records : List LabResultRecord)
    (g : CheckGroup) : List LabResultRecord :=
  (List.replicate (config.groups.count g) (records.filter (fun r => g.matches r))).flatten

/-- Calculates and holds the association between records and groups
(RecordGroupMatching).  The two dicts are modelled by their insertion-order
key lists and the per-key values the creation loop produces. -/
structure RecordGroupMatching where
  record_keys : List LabResultRecord
  record_to_groups : LabResultRecord → List CheckGroup
  group_keys : List CheckGroup
  group_to_records : CheckGroup → List LabResultRecord

/-- RecordGroupMatching.create from scoring.py. -/
def RecordGroupMatching.create (config : ScoringConfig)
    (records : List LabResultRecord) : RecordGroupMatching where
  record_keys := dedupKeys records
  record_to_groups := recordKeyGroups config records
  group_keys := dedupKeys config.groups
  group_to_records := groupKeyRecords config records

/-- Records whose dict entry lists more than one group association. -/
def RecordGroupMatching.records_matching_multiple_groups
    (m : RecordGroupMatching) : List LabResultRecord :=
  m.record_keys.filter (fun r => 1 < (m.record_to_groups r).length)

/-- Records whose dict entry lists no group association. -/
def RecordGroupMatching.records_without_group
    (m : RecordGroupMatching) : List LabResultRecord :=
  m.record_keys.filter (fun r => (m.record_to_groups r).length = 0)

/-- Groups whose dict entry lists no record association. -/
def RecordGroupMatching.groups_without_records
    (m : RecordGroupMatching) : List CheckGroup :=
  m.group_keys.filter (fun g => (m.group_to_records g).length = 0)

/-- The single-quote character, written by code point to keep string
literals plain. -/
def squote : String := String.singleton (Char.ofNat 39)

/-- Python repr of a str, for strings needing no escaping (quotes around the
text). -/
def pyStrRepr (s : String) : String := squote ++ s ++ squote

/-- Python str/repr of a LabResultRecord (the default frozen dataclass
repr). -/
def reprRecord (record : LabResultRecord) : String :=
  "LabResultRecord(description=" ++ pyStrRepr record.description ++
  ", passed=" ++ (if record.passed then "True" else "False") ++
  ", reason=" ++ pyStrRepr record.reason ++ ")"

/-- Python str/repr of a CheckGroup (the custom __repr__ in models.py). -/
def reprGroup (g : CheckGroup) : String := "CheckGroup(" ++ pyStrRepr g.name ++ ")"

/-- Python str of a list of CheckGroup values. -/
def reprGroupList (l : List CheckGroup) : String :=
  "[" ++ String.intercalate ", " (l.map reprGroup) ++ "]"

/-- The ValueError message for a record matched by several groups, naming
the first offending record and its full association list. -/
def multiMsg (record : LabResultRecord) (groups : List CheckGroup) : String :=
  "Some CSV records match multiple check groups, for example: " ++
  reprRecord record ++ " -> " ++ reprGroupList groups

/-- The ValueError message for a record matched by no group. -/
def noGroupMsg (record : LabResultRecord) : String :=
  "Some CSV records didn" ++ squote ++ "t match any check groups, for example: " ++
  reprRecord record

/-- The ValueError message for a group matched by no record. -/
def noRecordMsg (g : CheckGroup) : String :=
  "Some check groups didn" ++ squote ++ "t match any CSV records, for example: " ++
  reprGroup g

/-- The scoring entry point (score from scoring.py).  A raised ValueError is
an error value carrying the message; the log-only diagnostics before each
raise have no further effect and are not modelled. -/
def score (config : ScoringConfig) (records : List LabResultRecord) :
    Except String ScoringResult :=
  let matching := RecordGroupMatching.create config records
  match matching.records_matching_multiple_groups with
  | record :: _ => .error (multiMsg record (matching.record_to_groups record))
  | [] =>
    match matching.records_without_group with
    | record :: _ => .error (noGroupMsg record)
    | [] =>
      match matching.groups_without_records with
      | g :: _ => .error (noRecordMsg g)
      | [] =>
        .ok ⟨config.categories.map (fun cat =>
          ⟨cat, cat.groups.map (fun g => ⟨g, matching.group_to_records g⟩)⟩)⟩

/-!
The report formatter (format_result from scoring.py).
-/

/-- Two decimal digits with a leading zero when needed. -/
def pad2 (n : ℕ) : String := if n < 10 then "0" ++ toString n else toString n

/-- Python format(x, ".2f"): fixed-point rendering with two decimal places,
rounding half to even. -/
def formatFloat2 (q : ℚ) : String :=
  let c := roundHalfEven (q * 100)
  let a := c.natAbs
  let core := toString (a / 100) ++ "." ++ pad2 (a % 100)
  if c < 0 then "-" ++ core else core

/-- Python str on a float, modelled for values whose decimal expansion
terminates within 17 digits (the shortest-roundtrip rendering of doubles is
out of scope; no theorem depends on this rendering). -/
def floatStr (q : ℚ) : String :=
  let a : ℚ := |q|
  let ip : ℕ := ⌊a⌋.toNat
  let fracDigits : ℕ := (⌊(a - (ip : ℚ)) * 10 ^ 17⌋).toNat
  let s := toString fracDigits
  let padded := (List.replicate (17 - s.length) (Char.ofNat 48)).asString ++ s
  let stripped := (padded.data.reverse.dropWhile (fun c => c = Char.ofNat 48)).reverse
  let fracStr := if stripped.isEmpty then "0" else stripped.asString
  (if q < 0 then "-" else "") ++ toString ip ++ "." ++ fracStr

/-- Python str on a number: plain integer rendering for ints, float
rendering for floats. -/
def pyStr : PyNum → String
  | .int z => toString z
  | .float q => floatStr q

/-- Rendering of a percentage with format .2f; the nan sentinel renders as
the string nan. -/
def pctStr (p : Option ℚ) : String :=
  match p with
  | none => "nan"
  | some q => formatFloat2 q

/-- The use_float decision of format_result: whether any group result
anywhere in the whole scoring result has a float-typed earned_points value
(isinstance of float, a type test, not a value test). -/
def useFloat (result : ScoringResult) : Bool :=
  result.categories.any (fun cat => cat.groups.any (fun g => g.earned_points.isFloat))

/-- The local fmt helper of format_result, with the global flag explicit. -/
def fmtNum (uf : Bool) (x : PyNum) : String :=
  if uf then formatFloat2 x.toRat else pyStr x

/-- The body of format_result with the number renderer passed in: the same
single renderer is applied to every number of the report. -/
def formatResultWith (fmtF : PyNum → String) (result : ScoringResult)
    (show_all : Bool) : List String :=
  let header : List String :=
    [ "Summary:",
      "Points: " ++ fmtF result.earned_points,
      "   Max: " ++ fmtF result.max_points,
      "Result: " ++ pctStr result.earned_points_percentage ++ "%" ]
  let shown := if show_all then result.categories
    else result.categories.filter
      (fun cat => decide (cat.category.points_multiplier.toRat ≠ 0))
  let display_category_summary := decide (1 < shown.length)
  let groupLine := fun (g : GroupResult) =>
    " - " ++ g.group.name ++ ": " ++ fmtF g.earned_points ++ " out of " ++
    fmtF g.max_points ++ " (" ++ pctStr g.earned_points_percentage ++ "%)"
  let catLines := fun (cat : CategoryResult) =>
    "" ::
    (cat.category.name ++ ":" ++
      (if display_category_summary then
        " " ++ fmtF cat.earned_points ++ " out of " ++ fmtF cat.max_points ++
        " (" ++ pctStr cat.earned_points_percentage ++ "%)"
      else "")) ::
    cat.groups.map groupLine
  header ++ shown.flatMap catLines

/-- format_result from scoring.py: the use_float decision is computed once
for the whole report and the resulting fmt is used everywhere. -/
def format_result (result : ScoringResult) (show_all : Bool) : List String :=
  formatResultWith (fmtNum (useFloat result)) result show_all


/-!
Concrete fixtures used by witnesses and counterexamples.
-/

/-- A record that passed, with description d. -/
def rec1 : LabResultRecord := ⟨"d", true, "ok"⟩

/-- A single-record input list. -/
def recs1 : List LabResultRecord := [rec1]

/-- An ANY-strategy group matching description d. -/
def g1 : CheckGroup := ⟨"g1", .ANY, strRE "d", .int 5, "cat1", .int 1⟩

/-- A category holding g1. -/
def cat1 : GroupCategory := ⟨"cat1", .int 1, [g1]⟩

/-- A one-category, one-group configuration. -/
def cfg1 : ScoringConfig := ⟨[cat1]⟩

/-- A LINEAR-strategy group with integer points 10, matching description d. -/
def gLin : CheckGroup := ⟨"g2", .LINEAR, strRE "d", .int 10, "catL", .int 1⟩

/-- The category of gLin. -/
def catL : GroupCategory := ⟨"catL", .int 1, [gLin]⟩

/-- The group result of gLin on one passed record: earned is the float 10.0,
an integral value carrying the float type tag. -/
def grLin : GroupResult := ⟨gLin, [rec1]⟩

/-- The category result wrapping grLin. -/
def crLin : CategoryResult := ⟨catL, [grLin]⟩

/-- A complete scoring result whose every earned value is integral while one
is float-typed. -/
def resLin : ScoringResult := ⟨[crLin]⟩

/-- A category named X, used to show configuration errors do not name the
offending category. -/
def catX : GroupCategory := ⟨"X", .int 1, [g1]⟩

/-!
Helper lemmas.
-/

theorem toRat_pyAdd (a b : PyNum) : (pyAdd a b).toRat = a.toRat + b.toRat := by
  cases a <;> cases b <;> simp [pyAdd, PyNum.toRat]

theorem toRat_pyMul (a b : PyNum) : (pyMul a b).toRat = a.toRat * b.toRat := by
  cases a <;> cases b <;> simp [pyMul, PyNum.toRat]

theorem toRat_pySum (l : List PyNum) :
    (pySum l).toRat = (l.map PyNum.toRat).sum := by
  have h : ∀ (l : List PyNum) (a : PyNum),
      (l.foldl pyAdd a).toRat = a.toRat + (l.map PyNum.toRat).sum := by
    intro l
    induction l with
    | nil => intro a; simp
    | cons x xs ih =>
      intro a
      simp only [List.foldl_cons, List.map_cons, List.sum_cons]
      rw [ih, toRat_pyAdd]
      ring
  simpa [pySum, PyNum.toRat] using h l (.int 0)

theorem roundHalfEven_le_ceil (q : ℚ) : roundHalfEven q ≤ ⌈q⌉ := by
  unfold roundHalfEven
  by_cases h1 : q - ⌊q⌋ < 1/2
  · simp only [h1, if_true]
    exact Int.floor_le_ceil q
  · have hlt : (⌊q⌋ : ℚ) < q := by
      have : (1 : ℚ)/2 ≤ q - ⌊q⌋ := le_of_not_lt h1
      linarith
    have hceil : ⌊q⌋ < ⌈q⌉ := by
      exact_mod_cast lt_of_lt_of_le hlt (Int.le_ceil q)
    simp only [h1, if_false]
    split <;> [omega; skip]
    split <;> omega

theorem roundHalfEven_intCast (z : ℤ) : roundHalfEven (z : ℚ) = z := by
  unfold roundHalfEven
  rw [Int.floor_intCast]
  norm_num

theorem roundHalfEven_tie (z : ℤ) :
    roundHalfEven ((z : ℚ) + 1/2) = if z % 2 = 0 then z else z + 1 := by
  unfold roundHalfEven
  have hfl : ⌊(z : ℚ) + 1/2⌋ = z := by
    rw [add_comm, Int.floor_add_int]
    norm_num
  rw [hfl]
  norm_num

theorem reMatch_iff (s : List Char) (r : RE) :
    reMatch r s = true ↔ ∃ p t, p ++ t = s ∧ r.accept p = true := by
  induction s generalizing r with
  | nil =>
    simp only [reMatch]
    constructor
    · intro h
      exact ⟨[], [], rfl, h⟩
    · rintro ⟨p, t, hpt, hacc⟩
      have hp : p = [] := by
        cases p with
        | nil => rfl
        | cons a b => simp at hpt
      subst hp
      exact hacc
  | cons c s ih =>
    simp only [reMatch, Bool.or_eq_true]
    constructor
    · rintro (h | h)
      · exact ⟨[], c :: s, rfl, h⟩
      · obtain ⟨p, t, hpt, hacc⟩ := (ih (r.deriv c)).mp h
        exact ⟨c :: p, t, by simp [hpt], hacc⟩
    · rintro ⟨p, t, hpt, hacc⟩
      cases p with
      | nil =>
        left
        exact hacc
      | cons a p' =>
        right
        have hac : a = c := by
          have := congrArg (fun l => List.head? l) hpt
          simpa using this
        subst hac
        have hpt' : p' ++ t = s := by
          simpa using hpt
        exact (ih (r.deriv a)).mpr ⟨p', t, hpt', hacc⟩

theorem mem_dedupKeys {α : Type} [DecidableEq α] (l : List α) (a : α) :
    a ∈ dedupKeys l ↔ a ∈ l := by
  have h : ∀ (l acc : List α),
      a ∈ l.foldl (fun acc x => if x ∈ acc then acc else acc ++ [x]) acc ↔
        a ∈ acc ∨ a ∈ l := by
    intro l
    induction l with
    | nil => intro acc; simp
    | cons x xs ih =>
      intro acc
      simp only [List.foldl_cons]
      rw [ih]
      by_cases hx : x ∈ acc
      · simp only [if_pos hx, List.mem_cons]
        constructor
        · rintro (h | h) <;> tauto
        · rintro (h | h | h)
          · tauto
          · subst h; tauto
          · tauto
      · simp only [if_neg hx, List.mem_append, List.mem_singleton, List.mem_cons]
        tauto
  simpa [dedupKeys] using h l []

theorem length_recordKeyGroups (config : ScoringConfig)
    (records : List LabResultRecord) (record : LabResultRecord) :
    (recordKeyGroups config records record).length =
      (config.groups.filter (fun g => g.matches record)).length *
        records.count record := by
  unfold recordKeyGroups
  induction config.groups with
  | nil => simp
  | cons g gs ih =>
    by_cases hg : g.matches record
    · simp only [List.flatMap_cons, List.filter_cons, hg, if_true, List.length_append,
        List.length_replicate, ih, List.length_cons]
      ring
    · simp only [List.flatMap_cons, List.filter_cons, hg, if_false, List.length_append,
        ih, Bool.false_eq_true, List.length_nil]
      simp [hg]

theorem length_groupKeyRecords (config : ScoringConfig)
    (records : List LabResultRecord) (g : CheckGroup) :
    (groupKeyRecords config records g).length =
      config.groups.count g * (records.filter (fun r => g.matches r)).length := by
  unfold groupKeyRecords
  generalize config.groups.count g = n
  induction n with
  | zero => simp
  | succ n ih => simp [List.replicate_succ, ih, Nat.succ_mul]; ring

/-!
Claim theorems.
-/

/-- C3: a rule matches an outcome record iff the rule pattern accepts some
prefix of the record description, anchored at position 0; the match need
not consume the whole string, and an occurrence of the pattern starting
after position 0 does not by itself make a match. -/
theorem claim_C3_match_anchored (g : CheckGroup) (record : LabResultRecord) :
    g.matches record = true ↔
      ∃ p t, p ++ t = record.description.data ∧
        g.description_regex.accept p = true :=
  reMatch_iff record.description.data g.description_regex

/-- C4: at every aggregation level (group, category, overall) the
percentage is the not-applicable sentinel (NaN, modelled by none) exactly
when the maximum points are zero, and equals earned / max * 100 whenever
the maximum is nonzero. -/
theorem claim_C4_percentage (gr : GroupResult) (cr : CategoryResult)
    (sr : ScoringResult) :
    (gr.earned_points_percentage = none ↔ gr.max_points.toRat = 0) ∧
    (cr.earned_points_percentage = none ↔ cr.max_points.toRat = 0) ∧
    (sr.earned_points_percentage = none ↔ sr.max_points.toRat = 0) ∧
    (gr.max_points.toRat ≠ 0 →
      gr.earned_points_percentage =
        some (gr.earned_points.toRat / gr.max_points.toRat * 100)) ∧
    (cr.max_points.toRat ≠ 0 →
      cr.earned_points_percentage =
        some (cr.earned_points.toRat / cr.max_points.toRat * 100)) ∧
    (sr.max_points.toRat ≠ 0 →
      sr.earned_points_percentage =
        some (sr.earned_points.toRat / sr.max_points.toRat * 100)) := by
  unfold GroupResult.earned_points_percentage CategoryResult.earned_points_percentage
    ScoringResult.earned_points_percentage _calc_percentage
  refine ⟨?_, ?_, ?_, ?_, ?_, ?_⟩ <;> intros <;> split_ifs <;> simp_all

/-- C4 witness: the group result of one passed LINEAR record has nonzero
maximum and a defined percentage of 100. -/
theorem claim_C4_witness :
    grLin.earned_points_percentage =
      some (grLin.earned_points.toRat / grLin.max_points.toRat * 100) :=
  (claim_C4_percentage grLin crLin resLin).2.2.2.1 (by decide)

/-- C5: the counts and points of a category result are the sums of the
corresponding values of its group results, and those of the overall result
are the sums over its category results, for every tree shape. -/
theorem claim_C5_aggregation (cr : CategoryResult) (sr : ScoringResult) :
    cr.total_checks_count = (cr.groups.map GroupResult.total_checks_count).sum ∧
    cr.passed_checks_count = (cr.groups.map GroupResult.passed_checks_count).sum ∧
    cr.failed_check_count = (cr.groups.map GroupResult.failed_check_count).sum ∧
    cr.earned_points.toRat = (cr.groups.map (fun g => g.earned_points.toRat)).sum ∧
    cr.max_points.toRat = (cr.groups.map (fun g => g.max_points.toRat)).sum ∧
    sr.total_checks_count = (sr.categories.map CategoryResult.total_checks_count).sum ∧
    sr.passed_checks_count = (sr.categories.map CategoryResult.passed_checks_count).sum ∧
    sr.failed_check_count = (sr.categories.map CategoryResult.failed_check_count).sum ∧
    sr.earned_points.toRat = (sr.categories.map (fun c => c.earned_points.toRat)).sum ∧
    sr.max_points.toRat = (sr.categories.map (fun c => c.max_points.toRat)).sum := by
  refine ⟨rfl, rfl, rfl, ?_, ?_, rfl, rfl, rfl, ?_, ?_⟩
  · simp only [CategoryResult.earned_points, toRat_pySum, List.map_map]
    rfl
  · simp only [CategoryResult.max_points, toRat_pySum, List.map_map]
    rfl
  · simp only [ScoringResult.earned_points, toRat_pySum, List.map_map]
    rfl
  · simp only [ScoringResult.max_points, toRat_pySum, List.map_map]
    rfl

/-- C9: the scoring entry point is a pure, deterministic function of the
configuration and the records: two invocations on identical inputs yield
identical results.  The model is a function because the source mutates
nothing: all inputs are frozen dataclasses, the association dicts are local
to the call, and the only side effect of score is diagnostic logging on the
failure paths. -/
theorem claim_C9_deterministic (config : ScoringConfig)
    (records : List LabResultRecord) :
    score config records = score config records := rfl

/-- C6: for a nonempty record list the rounded linear strategy earns
exactly the Python round (tie broken half to even) of the linear strategy
value and the floored linear strategy earns exactly its floor (toward
negative infinity); all three linear-family strategies have maximum points
equal to the weight.  The tie conjunct certifies the half-to-even
behaviour of the rounding and the last conjunct the downward bracketing of
the floor. -/
theorem claim_C6_round_floor (w : PyNum) (records : List LabResultRecord)
    (_hne : records ≠ []) :
    GroupType.calculate_earned_points .LINEAR_ROUNDED w records =
      pyRound (GroupType.calculate_earned_points .LINEAR w records) ∧
    GroupType.calculate_earned_points .LINEAR_FLOORED w records =
      pyFloor (GroupType.calculate_earned_points .LINEAR w records) ∧
    GroupType.calculate_max_points .LINEAR_ROUNDED w records = w ∧
    GroupType.calculate_max_points .LINEAR_FLOORED w records = w ∧
    GroupType.calculate_max_points .LINEAR w records = w ∧
    (∀ z : ℤ, roundHalfEven ((z : ℚ) + 1/2) = if z % 2 = 0 then z else z + 1) ∧
    (∀ x : PyNum, (pyFloor x).toRat ≤ x.toRat ∧ x.toRat - 1 < (pyFloor x).toRat) := by
  refine ⟨rfl, rfl, rfl, rfl, rfl, roundHalfEven_tie, ?_⟩
  intro x
  constructor
  · show ((⌊x.toRat⌋ : ℤ) : ℚ) ≤ x.toRat
    exact Int.floor_le x.toRat
  · show x.toRat - 1 < ((⌊x.toRat⌋ : ℤ) : ℚ)
    exact Int.sub_one_lt_floor x.toRat

/-- C6 witness at weight 10 and one passed record. -/
theorem claim_C6_witness :
    recs1 ≠ [] ∧
    GroupType.calculate_earned_points .LINEAR_ROUNDED (.int 10) recs1 =
      pyRound (GroupType.calculate_earned_points .LINEAR (.int 10) recs1) :=
  ⟨by decide, (claim_C6_round_floor (.int 10) recs1 (by decide)).1⟩

/-- C1 as stated is false: with the rounded linear strategy, the legal
fractional weight 3/5 and one passed record, the earned points are
round(3/5) = 1, which exceeds the maximum points 3/5. -/
theorem claim_C1_counterexample :
    (0 : ℚ) ≤ (PyNum.float (3/5)).toRat ∧ recs1 ≠ [] ∧
    ¬((GroupType.calculate_earned_points .LINEAR_ROUNDED (.float (3/5)) recs1).toRat ≤
      (GroupType.calculate_max_points .LINEAR_ROUNDED (.float (3/5)) recs1).toRat) := by
  have hlin : (linearEarned (.float (3/5)) recs1).toRat = 3/5 := by
    unfold linearEarned
    rw [toRat_pyMul]
    have hk : countPassed recs1 = 1 := rfl
    have hn : recs1.length = 1 := rfl
    rw [hk, hn]
    norm_num [pyDiv, PyNum.toRat]
  have hr : roundHalfEven ((3 : ℚ)/5) = 1 := by
    have hfl : ⌊(3 : ℚ)/5⌋ = 0 := by
      rw [Int.floor_eq_iff]
      norm_num
    unfold roundHalfEven
    rw [hfl]
    norm_num
  refine ⟨by norm_num [PyNum.toRat], by decide, ?_⟩
  simp only [GroupType.calculate_earned_points, GroupType.calculate_max_points,
    pyRound]
  rw [hlin, hr]
  show ¬(((1 : ℤ) : ℚ) ≤ (PyNum.float (3/5)).toRat)
  norm_num [PyNum.toRat]

/-- C1 amended: for every strategy, nonnegative weight and nonempty record
list, earned points never exceed maximum points, provided the weight is an
integer whenever the strategy is LINEAR_ROUNDED; the restriction is forced
by the counterexample, and the other five strategies hold for every
nonnegative weight, fractional included. -/
theorem claim_C1_earned_le_max (t : GroupType) (w : PyNum)
    (records : List LabResultRecord) (hne : records ≠ [])
    (hw : 0 ≤ w.toRat) (hint : t = .LINEAR_ROUNDED → w.toRat.den = 1) :
    (t.calculate_earned_points w records).toRat ≤
      (t.calculate_max_points w records).toRat := by
  have hn : 0 < records.length := List.length_pos.mpr hne
  have hk : countPassed records ≤ records.length := List.countP_le_length _
  have hlin : (linearEarned w records).toRat ≤ w.toRat := by
    unfold linearEarned
    rw [toRat_pyMul]
    have hdiv : (pyDiv (.int (countPassed records)) (.int records.length)).toRat ≤ 1 := by
      simp only [pyDiv, PyNum.toRat]
      rw [div_le_one (by exact_mod_cast hn)]
      exact_mod_cast hk
    have hdiv0 : 0 ≤ (pyDiv (.int (countPassed records)) (.int records.length)).toRat := by
      simp only [pyDiv, PyNum.toRat]
      positivity
    calc (pyDiv (.int (countPassed records)) (.int records.length)).toRat * w.toRat
        ≤ 1 * w.toRat := mul_le_mul_of_nonneg_right hdiv hw
      _ = w.toRat := one_mul _
  cases t with
  | EACH =>
    simp only [GroupType.calculate_earned_points, GroupType.calculate_max_points,
      toRat_pyMul]
    apply mul_le_mul_of_nonneg_left _ hw
    simp only [PyNum.toRat]
    exact_mod_cast hk
  | LINEAR =>
    simpa [GroupType.calculate_earned_points, GroupType.calculate_max_points]
      using hlin
  | LINEAR_ROUNDED =>
    have hden := hint rfl
    have hm : (w.toRat.num : ℚ) = w.toRat := by
      have h0 := Rat.num_div_den w.toRat
      rw [hden] at h0
      simpa using h0
    simp only [GroupType.calculate_earned_points, GroupType.calculate_max_points,
      pyRound]
    have h1 : roundHalfEven (linearEarned w records).toRat ≤
        ⌈(linearEarned w records).toRat⌉ := roundHalfEven_le_ceil _
    have h2 : ⌈(linearEarned w records).toRat⌉ ≤ ⌈w.toRat⌉ := Int.ceil_le_ceil hlin
    have h3 : ⌈w.toRat⌉ = w.toRat.num := by
      rw [← hm]
      exact Int.ceil_intCast _
    show ((roundHalfEven (linearEarned w records).toRat : ℤ) : ℚ) ≤ w.toRat
    rw [← hm]
    exact_mod_cast le_trans h1 (le_trans h2 (le_of_eq h3))
  | LINEAR_FLOORED =>
    simp only [GroupType.calculate_earned_points, GroupType.calculate_max_points,
      pyFloor, PyNum.toRat]
    calc ((⌊(linearEarned w records).toRat⌋ : ℤ) : ℚ)
        ≤ (linearEarned w records).toRat := Int.floor_le _
      _ ≤ w.toRat := hlin
  | ALL =>
    simp only [GroupType.calculate_earned_points, GroupType.calculate_max_points]
    split
    · exact le_refl _
    · simpa [PyNum.toRat] using hw
  | ANY =>
    simp only [GroupType.calculate_earned_points, GroupType.calculate_max_points]
    split
    · exact le_refl _
    · simpa [PyNum.toRat] using hw

/-- C1 witness at the EACH strategy, integer weight 2 and one passed
record. -/
theorem claim_C1_witness :
    (GroupType.calculate_earned_points .EACH (.int 2) recs1).toRat ≤
      (GroupType.calculate_max_points .EACH (.int 2) recs1).toRat :=
  claim_C1_earned_le_max .EACH (.int 2) recs1 (by decide) (by decide) (by decide)

theorem dedup_length_eq_iff {α : Type} [DecidableEq α] (l : List α) :
    l.dedup.length = l.length ↔ l.Nodup := by
  constructor
  · intro h
    exact List.dedup_eq_self.mp ((List.dedup_sublist l).eq_of_length h)
  · intro h
    rw [List.dedup_eq_self.mpr h]

/-- C7 as stated is false: two categories both named X yield a ValueError
whose fixed message does not name the duplicate; the message contains no
character of the offending name X at all. -/
theorem claim_C7_counterexample :
    catX.name = "X" ∧
    mkScoringConfig [catX, catX] = .error "Group category names must be unique" ∧
    ∀ c ∈ ("Group category names must be unique" : String).data, c ≠ 'X' := by
  refine ⟨rfl, by rfl, by decide⟩

/-- C7 amended: constructing a configuration succeeds exactly when category
names are pairwise distinct, rule names are pairwise distinct inside every
category, and every category has at least one rule; otherwise it fails at
construction, before any record is processed, with one of three fixed
ValueError messages identifying the violated invariant (the message does
not name the specific duplicate or empty category, as the counterexample
shows), and no configuration value is produced. -/
theorem claim_C7_config_validation (categories : List GroupCategory) :
    ((∃ cfg, mkScoringConfig categories = .ok cfg ∧ cfg.categories = categories) ↔
      ((categories.map (fun cat => cat.name)).Nodup ∧
       (∀ cat ∈ categories, (cat.groups.map (fun g => g.name)).Nodup) ∧
       (∀ cat ∈ categories, cat.groups ≠ []))) ∧
    (∀ msg, mkScoringConfig categories = .error msg →
      msg = "Group category names must be unique" ∨
      msg = "Check group names within categories must be unique" ∨
      msg = "Each category must contain at least one check group") := by
  have key : ∀ (l : List String) (n : ℕ), l.length = n →
      (l.dedup.length = n ↔ l.Nodup) := by
    intro l n h
    rw [← h]
    exact dedup_length_eq_iff l
  have kcat := key (categories.map (fun cat => cat.name)) categories.length
    (List.length_map _ _)
  unfold mkScoringConfig
  split_ifs with h1 h2 h3
  · refine ⟨⟨fun h => ?_, fun h => ?_⟩, fun msg hmsg => ?_⟩
    · obtain ⟨cfg, hcfg, -⟩ := h
      cases hcfg
    · exact absurd (kcat.mpr h.1) h1
    · cases hmsg
      exact Or.inl rfl
  · rw [List.any_eq_true] at h2
    obtain ⟨cat, hcat, hbad⟩ := h2
    rw [decide_eq_true_eq] at hbad
    refine ⟨⟨fun h => ?_, fun h => ?_⟩, fun msg hmsg => ?_⟩
    · obtain ⟨cfg, hcfg, -⟩ := h
      cases hcfg
    · exact absurd ((key _ _ (List.length_map _ _)).mpr (h.2.1 cat hcat)) hbad
    · cases hmsg
      exact Or.inr (Or.inl rfl)
  · rw [List.any_eq_true] at h3
    obtain ⟨cat, hcat, hbad⟩ := h3
    rw [decide_eq_true_eq, List.length_eq_zero] at hbad
    refine ⟨⟨fun h => ?_, fun h => ?_⟩, fun msg hmsg => ?_⟩
    · obtain ⟨cfg, hcfg, -⟩ := h
      cases hcfg
    · exact absurd hbad (h.2.2 cat hcat)
    · cases hmsg
      exact Or.inr (Or.inr rfl)
  · refine ⟨⟨fun _ => ⟨?_, ?_, ?_⟩, fun _ => ⟨⟨categories⟩, rfl, rfl⟩⟩,
      fun msg hmsg => ?_⟩
    · exact kcat.mp (not_ne_iff.mp h1)
    · intro cat hcat
      rw [List.any_eq_true] at h2
      push_neg at h2
      have hb := h2 cat hcat
      rw [ne_eq, decide_eq_true_eq] at hb
      exact (key _ _ (List.length_map _ _)).mp (not_ne_iff.mp hb)
    · intro cat hcat
      rw [List.any_eq_true] at h3
      push_neg at h3
      have hb := h3 cat hcat
      rw [ne_eq, decide_eq_true_eq] at hb
      intro he
      apply hb
      rw [he]
      rfl
    · cases hmsg

/-- C7 witness: the one-category configuration cfg1 is constructed
successfully. -/
theorem claim_C7_witness :
    ∃ cfg, mkScoringConfig [cat1] = .ok cfg ∧ cfg.categories = [cat1] :=
  (claim_C7_config_validation [cat1]).1.mpr ⟨by decide, by decide, by decide⟩

theorem grLin_earned_toRat : grLin.earned_points.toRat = ((10 : ℤ) : ℚ) := by
  show (GroupType.calculate_earned_points .LINEAR
    (pyMul gLin.points gLin.category_multiplier) [rec1]).toRat = ((10 : ℤ) : ℚ)
  simp only [GroupType.calculate_earned_points, linearEarned, toRat_pyMul]
  have hk : countPassed [rec1] = 1 := rfl
  have hn : ([rec1] : List LabResultRecord).length = 1 := rfl
  rw [hk, hn]
  show ((1 : ℤ) : ℚ) / ((1 : ℤ) : ℚ) * (((10 : ℤ) : ℚ) * ((1 : ℤ) : ℚ)) = _
  norm_num

/-- C8 as stated is false: in the concrete result resLin every earned-points
value is the integral 10 (denominator 1), yet the report renders the total
as Points: 10.00 with two decimal places instead of the plain integer 10,
because the decision tests the Python float type tag (always produced by
the LINEAR division), not integrality of the value. -/
theorem claim_C8_counterexample :
    (∀ cat ∈ resLin.categories, ∀ g ∈ cat.groups, g.earned_points.toRat.den = 1) ∧
    (format_result resLin false).get? 1 = some ("Points: 10.00") := by
  constructor
  · intro cat hcat g hg
    have hcat1 : cat = crLin := by
      simpa [resLin] using hcat
    subst hcat1
    have hg1 : g = grLin := by
      simpa [crLin] using hg
    subst hg1
    rw [grLin_earned_toRat]
    exact Rat.den_intCast 10
  · have hres : resLin.earned_points.toRat = ((10 : ℤ) : ℚ) := by
      show (pySum [crLin.earned_points]).toRat = _
      rw [toRat_pySum]
      simp only [List.map_cons, List.map_nil, List.sum_cons, List.sum_nil, add_zero]
      show (pySum [grLin.earned_points]).toRat = _
      rw [toRat_pySum]
      simp only [List.map_cons, List.map_nil, List.sum_cons, List.sum_nil, add_zero]
      exact grLin_earned_toRat
    have hfmt : fmtNum true resLin.earned_points = "10.00" := by
      show formatFloat2 resLin.earned_points.toRat = "10.00"
      rw [hres]
      unfold formatFloat2
      have hr : roundHalfEven (((10 : ℤ) : ℚ) * 100) = 1000 := by
        have hv : ((10 : ℤ) : ℚ) * 100 = ((1000 : ℤ) : ℚ) := by
          norm_num
        rw [hv, roundHalfEven_intCast]
      rw [hr]
      rfl
    have huf : useFloat resLin = true := rfl
    show ((formatResultWith (fmtNum (useFloat resLin)) resLin false).get? 1 = _)
    rw [huf]
    show some ("Points: " ++ fmtNum true resLin.earned_points) = _
    rw [hfmt]
    rfl

/-- C8 amended: the report formatter renders every number with two decimal
places exactly when some group result anywhere in the overall result has a
float-typed earned-points value (which the LINEAR strategy produces even
for integral values, so integrality of the values is not the criterion),
and renders plain str output otherwise; a single renderer chosen by this
global decision is applied to every number, never mixed per line. -/
theorem claim_C8_global_format (result : ScoringResult) (show_all : Bool) :
    (useFloat result = true ↔
      ∃ cat ∈ result.categories, ∃ g ∈ cat.groups, g.earned_points.isFloat = true) ∧
    (useFloat result = true →
      format_result result show_all =
        formatResultWith (fun x => formatFloat2 x.toRat) result show_all) ∧
    (useFloat result = false →
      format_result result show_all = formatResultWith pyStr result show_all) := by
  refine ⟨?_, ?_, ?_⟩
  · simp [useFloat, List.any_eq_true]
  · intro h
    unfold format_result
    rw [h]
    rfl
  · intro h
    unfold format_result
    rw [h]
    rfl

/-- C8 witness: resLin contains a float-typed earned value, so the whole
report is rendered with the two-decimal renderer. -/
theorem claim_C8_witness :
    format_result resLin false =
      formatResultWith (fun x => formatFloat2 x.toRat) resLin false :=
  (claim_C8_global_format resLin false).2.1 rfl

theorem score_ok_iff (config : ScoringConfig) (records : List LabResultRecord) :
    (∃ res, score config records = .ok res) ↔
      ((RecordGroupMatching.create config records).records_matching_multiple_groups = [] ∧
       (RecordGroupMatching.create config records).records_without_group = [] ∧
       (RecordGroupMatching.create config records).groups_without_records = []) := by
  unfold score
  cases h1 : (RecordGroupMatching.create config records).records_matching_multiple_groups with
  | cons a t => simp [h1]
  | nil =>
    cases h2 : (RecordGroupMatching.create config records).records_without_group with
    | cons a t => simp [h1, h2]
    | nil =>
      cases h3 : (RecordGroupMatching.create config records).groups_without_records with
      | cons a t => simp [h1, h2, h3]
      | nil => simp [h1, h2, h3]

theorem score_error_cases (config : ScoringConfig) (records : List LabResultRecord)
    (msg : String) (h : score config records = .error msg) :
    (∃ a t, (RecordGroupMatching.create config records).records_matching_multiple_groups
        = a :: t ∧ msg = multiMsg a (recordKeyGroups config records a)) ∨
    (∃ a t, (RecordGroupMatching.create config records).records_without_group
        = a :: t ∧ msg = noGroupMsg a) ∨
    (∃ a t, (RecordGroupMatching.create config records).groups_without_records
        = a :: t ∧ msg = noRecordMsg a) := by
  unfold score at h
  cases h1 : (RecordGroupMatching.create config records).records_matching_multiple_groups with
  | cons a t =>
    simp only [h1, Except.error.injEq] at h
    exact Or.inl ⟨a, t, rfl, h.symm⟩
  | nil =>
    cases h2 : (RecordGroupMatching.create config records).records_without_group with
    | cons a t =>
      simp only [h1, h2, Except.error.injEq] at h
      exact Or.inr (Or.inl ⟨a, t, rfl, h.symm⟩)
    | nil =>
      cases h3 : (RecordGroupMatching.create config records).groups_without_records with
      | cons a t =>
        simp only [h1, h2, h3, Except.error.injEq] at h
        exact Or.inr (Or.inr ⟨a, t, rfl, h.symm⟩)
      | nil =>
        simp only [h1, h2, h3] at h
        cases h

/-- C2 as stated is false: the input [rec1, rec1] repeats one record; its
two occurrences are each matched by exactly one rule of cfg1 and the rule
is matched by records, yet score raises the multiple-groups ValueError
instead of returning a result, because the dict collapses the equal records
into one key holding the rule twice. -/
theorem claim_C2_counterexample :
    (∀ r ∈ [rec1, rec1], (cfg1.groups.filter (fun g => g.matches r)).length = 1) ∧
    (∀ g ∈ cfg1.groups, ∃ r ∈ [rec1, rec1], g.matches r = true) ∧
    ¬(∃ res, score cfg1 [rec1, rec1] = .ok res) := by
  refine ⟨by decide, by decide, ?_⟩
  rintro ⟨res, hres⟩
  have : score cfg1 [rec1, rec1] = .error (multiMsg rec1 [g1, g1]) := by rfl
  rw [this] at hres
  cases hres

/-- C2 amended: score returns an overall result exactly when every record
value occurs exactly once in the input and is matched by exactly one rule
and every rule matches at least one record (structurally equal duplicate
records are collapsed to one association key and reported as matched by
multiple groups); otherwise it raises a ValueError before producing any
score, whose message embeds the repr of a first offending record (for a
multiply-matched record together with the full list of its associated
rules) or of a first unmatched rule.  It never partially succeeds. -/
theorem claim_C2_score_validation (config : ScoringConfig)
    (records : List LabResultRecord) :
    ((∃ res, score config records = .ok res) ↔
      ((∀ r ∈ records, records.count r = 1 ∧
          (config.groups.filter (fun g => g.matches r)).length = 1) ∧
       (∀ g ∈ config.groups, ∃ r ∈ records, g.matches r = true))) ∧
    (∀ msg, score config records = .error msg →
      (∃ r, r ∈ records ∧ 1 < (recordKeyGroups config records r).length ∧
        msg = multiMsg r (recordKeyGroups config records r)) ∨
      (∃ r, r ∈ records ∧ recordKeyGroups config records r = [] ∧
        msg = noGroupMsg r) ∨
      (∃ g, g ∈ config.groups ∧ (∀ r ∈ records, g.matches r = false) ∧
        msg = noRecordMsg g)) := by
  have hm_iff : ((dedupKeys records).filter
        (fun r => 1 < (recordKeyGroups config records r).length) = []) ↔
      ∀ r ∈ records, (recordKeyGroups config records r).length ≤ 1 := by
    rw [List.filter_eq_nil_iff]
    constructor
    · intro h r hr
      have := h r ((mem_dedupKeys records r).mpr hr)
      simpa [not_lt] using this
    · intro h r hr
      simp only [decide_eq_true_eq, not_lt]
      exact h r ((mem_dedupKeys records r).mp hr)
  have hw_iff : ((dedupKeys records).filter
        (fun r => (recordKeyGroups config records r).length = 0) = []) ↔
      ∀ r ∈ records, (recordKeyGroups config records r).length ≠ 0 := by
    rw [List.filter_eq_nil_iff]
    constructor
    · intro h r hr
      have := h r ((mem_dedupKeys records r).mpr hr)
      simpa using this
    · intro h r hr
      simp only [decide_eq_true_eq]
      exact h r ((mem_dedupKeys records r).mp hr)
  have hg_iff : ((dedupKeys config.groups).filter
        (fun g => (groupKeyRecords config records g).length = 0) = []) ↔
      ∀ g ∈ config.groups, (groupKeyRecords config records g).length ≠ 0 := by
    rw [List.filter_eq_nil_iff]
    constructor
    · intro h g hg
      have := h g ((mem_dedupKeys config.groups g).mpr hg)
      simpa using this
    · intro h g hg
      simp only [decide_eq_true_eq]
      exact h g ((mem_dedupKeys config.groups g).mp hg)
  constructor
  · rw [score_ok_iff]
    constructor
    · rintro ⟨hm, hw, hg⟩
      have hm' := hm_iff.mp hm
      have hw' := hw_iff.mp hw
      have hg' := hg_iff.mp hg
      constructor
      · intro r hr
        have h1 := hm' r hr
        have h2 := hw' r hr
        have hlen : (recordKeyGroups config records r).length = 1 := by omega
        rw [length_recordKeyGroups] at hlen
        have hsplit := mul_eq_one.mp hlen
        exact ⟨hsplit.2, hsplit.1⟩
      · intro g hg0
        have h3 := hg' g hg0
        rw [length_groupKeyRecords] at h3
        have hflen : (records.filter (fun r => g.matches r)).length ≠ 0 := by
          intro h0
          apply h3
          rw [h0, Nat.mul_zero]
        obtain ⟨r, hrmem⟩ :=
          List.exists_mem_of_length_pos (Nat.pos_of_ne_zero hflen)
        have hrf := List.mem_filter.mp hrmem
        exact ⟨r, hrf.1, by simpa using hrf.2⟩
    · rintro ⟨hrec, hgrp⟩
      refine ⟨hm_iff.mpr ?_, hw_iff.mpr ?_, hg_iff.mpr ?_⟩
      · intro r hr
        have hr1 := hrec r hr
        rw [length_recordKeyGroups, hr1.2, hr1.1]
      · intro r hr
        have hr1 := hrec r hr
        rw [length_recordKeyGroups, hr1.2, hr1.1]
        omega
      · intro g hg0
        obtain ⟨r, hr, hmatch⟩ := hgrp g hg0
        rw [length_groupKeyRecords]
        have hcnt : 0 < config.groups.count g := List.count_pos_iff.mpr hg0
        have hfl : 0 < (records.filter (fun r => g.matches r)).length := by
          have hrin : r ∈ records.filter (fun r => g.matches r) :=
            List.mem_filter.mpr ⟨hr, by simpa using hmatch⟩
          exact List.length_pos.mpr (List.ne_nil_of_mem hrin)
        exact Nat.mul_ne_zero (by omega) (by omega)
  · intro msg hmsg
    rcases score_error_cases config records msg hmsg with
      ⟨a, t, hlist, hmsg'⟩ | ⟨a, t, hlist, hmsg'⟩ | ⟨a, t, hlist, hmsg'⟩
    · left
      have hmem : a ∈ (dedupKeys records).filter
          (fun r => 1 < (recordKeyGroups config records r).length) := by
        show a ∈ (RecordGroupMatching.create config records).records_matching_multiple_groups
        rw [hlist]
        exact List.mem_cons_self a t
      have hf := List.mem_filter.mp hmem
      exact ⟨a, (mem_dedupKeys records a).mp hf.1, by simpa using hf.2, hmsg'⟩
    · right; left
      have hmem : a ∈ (dedupKeys records).filter
          (fun r => (recordKeyGroups config records r).length = 0) := by
        show a ∈ (RecordGroupMatching.create config records).records_without_group
        rw [hlist]
        exact List.mem_cons_self a t
      have hf := List.mem_filter.mp hmem
      refine ⟨a, (mem_dedupKeys records a).mp hf.1, ?_, hmsg'⟩
      have hz : (recordKeyGroups config records a).length = 0 := by simpa using hf.2
      exact List.length_eq_zero.mp hz
    · right; right
      have hmem : a ∈ (dedupKeys config.groups).filter
          (fun g => (groupKeyRecords config records g).length = 0) := by
        show a ∈ (RecordGroupMatching.create config records).groups_without_records
        rw [hlist]
        exact List.mem_cons_self a t
      have hf := List.mem_filter.mp hmem
      have hz : (groupKeyRecords config records a).length = 0 := by simpa using hf.2
      rw [length_groupKeyRecords] at hz
      have hgmem := (mem_dedupKeys config.groups a).mp hf.1
      have hcnt : 0 < config.groups.count a := List.count_pos_iff.mpr hgmem
      have hfl : (records.filter (fun r => a.matches r)).length = 0 := by
        rcases Nat.mul_eq_zero.mp hz with h | h
        · omega
        · exact h
      refine ⟨a, hgmem, ?_, hmsg'⟩
      intro r hr
      have hfe : records.filter (fun r => a.matches r) = [] :=
        List.length_eq_zero.mp hfl
      have htrue : a.matches r = false := by
        by_contra hmm
        have hT : a.matches r = true := by
          revert hmm
          cases a.matches r <;> simp
        have hrin : r ∈ records.filter (fun r => a.matches r) :=
          List.mem_filter.mpr ⟨hr, by simpa using hT⟩
        rw [hfe] at hrin
        cases hrin
      exact htrue

/-- C2 witness: on the matched pair cfg1 and recs1 the validation passes and
score returns a result. -/
theorem claim_C2_witness : ∃ res, score cfg1 recs1 = .ok res :=
  (claim_C2_score_validation cfg1 recs1).1.mpr ⟨by decide, by decide⟩

/-- C10: with the single-rule configuration cfg1 and an input repeating one
record twice, the matcher collapses the two structurally equal records into
one association key, lists the single matching rule twice for that key, and
score fails with the records-match-multiple-groups ValueError naming that
record, although no two distinct rules overlap on any description and the
record is matched by exactly one rule. -/
theorem claim_C10_duplicate_records :
    dedupKeys [rec1, rec1] = [rec1] ∧
    recordKeyGroups cfg1 [rec1, rec1] rec1 = [g1, g1] ∧
    score cfg1 [rec1, rec1] = .error (multiMsg rec1 [g1, g1]) ∧
    (∀ gA ∈ cfg1.groups, ∀ gB ∈ cfg1.groups, gA ≠ gB →
      ∀ r ∈ [rec1, rec1], ¬(gA.matches r = true ∧ gB.matches r = true)) ∧
    (cfg1.groups.filter (fun g => g.matches rec1)).length = 1 := by
  refine ⟨by decide, by decide, by rfl, by decide, by decide⟩
